import Mathlib

set_option autoImplicit false
set_option maxHeartbeats 1000000

/-
Verification of the core data pipeline of `traffic_data_app.py` (toro68/ryfast).

Python runtime values are modelled by the explicit type `PyVal`; fallible
dictionary/list accesses return `Except PyErr`, mirroring Python's
`KeyError` / `TypeError` / `IndexError`.  Numbers are modelled by `ℚ`
(`int` as `vint`, `float` as `vnum`).  Dates are modelled as proleptic
Gregorian ordinals, exactly the convention of CPython's
`datetime.date.toordinal` (January 1 of year 1 is ordinal 1, a Monday).
-/

inductive PyErr where
  | keyError
  | typeError
  | indexError
deriving DecidableEq, Repr

inductive PyVal where
  | vnone
  | vint (n : ℤ)
  | vnum (q : ℚ)
  | vstr (s : String)
  | vlist (xs : List PyVal)
  | vdict (fields : List (String × PyVal))

/-- First value bound to `key` in an association list (Python dict lookup order). -/
def findVal {α : Type} : List (String × α) → String → Option α
  | [], _ => none
  | (k, v) :: rest, key => if k = key then some v else findVal rest key

/-- `v[key]` for a string key: a `dict` yields the bound value or `KeyError`;
any non-dict raises `TypeError` (as subscripting an `int`/`None`/`list` with a
string does in Python). -/
def dictGet (v : PyVal) (key : String) : Except PyErr PyVal :=
  match v with
  | .vdict fields =>
    match findVal fields key with
    | some x => .ok x
    | none => .error .keyError
  | _ => .error .typeError

/-- `key in v` for a string key: membership for dicts and lists, substring
test for strings, `TypeError` otherwise. -/
def pyContains (v : PyVal) (key : String) : Except PyErr Bool :=
  match v with
  | .vdict fields => .ok (findVal fields key).isSome
  | .vlist xs =>
    .ok (xs.any fun x => match x with | .vstr s => s = key | _ => false)
  | .vstr s => .ok (s.data.tails.any (key.data.isPrefixOf ·))
  | _ => .error .typeError

/-- Python truthiness. -/
def pyTruthy : PyVal → Bool
  | .vnone => false
  | .vint n => n ≠ 0
  | .vnum q => q ≠ 0
  | .vstr s => s ≠ ""
  | .vlist xs => !xs.isEmpty
  | .vdict fields => !fields.isEmpty

/-- Python list-index resolution for a list of length `len`: non-negative
indices must be `< len`, negative indices count from the end, anything else
raises `IndexError`. -/
def pyListIdx (len : ℕ) (i : ℤ) : Except PyErr ℕ :=
  if 0 ≤ i then
    if i < (len : ℤ) then .ok i.toNat else .error .indexError
  else
    if 0 ≤ i + (len : ℤ) then .ok (i + (len : ℤ)).toNat else .error .indexError

/-- `v[i]` for an integer index: lists and strings index positionally,
dicts raise `KeyError` (no such key), the rest raise `TypeError`. -/
def pyIndexInt (v : PyVal) (i : ℤ) : Except PyErr PyVal :=
  match v with
  | .vlist xs =>
    match pyListIdx xs.length i with
    | .ok n => .ok (xs.getD n .vnone)
    | .error e => .error e
  | .vstr s =>
    match pyListIdx s.length i with
    | .ok n => .ok (.vstr (String.mk [s.data.getD n ' ']))
    | .error e => .error e
  | .vdict _ => .error .keyError
  | _ => .error .typeError

/-- `str(v)`, only to the fidelity the claims need (messages in the model are
always `vstr`). -/
def pyStr : PyVal → String
  | .vstr s => s
  | .vnone => "None"
  | .vint n => toString n
  | .vnum q => toString q
  | .vlist _ => "<list>"
  | .vdict _ => "<dict>"

/-- Accumulating `q + v` for a Python number `v`; adding a non-number raises
`TypeError`. -/
def addNum (q : ℚ) (v : PyVal) : Except PyErr ℚ :=
  match v with
  | .vint n => .ok (q + (n : ℚ))
  | .vnum r => .ok (q + r)
  | _ => .error .typeError

/-- `some_list[month - 1]` where `month` is an arbitrary Python value:
a non-`int` month raises `TypeError` (either in `month - 1` or in the list
subscript), an `int` resolves through Python index rules. -/
def monthIdx (month : PyVal) (len : ℕ) : Except PyErr ℕ :=
  match month with
  | .vint n => pyListIdx len (n - 1)
  | _ => .error .typeError

/-! ## Calendar model (CPython `datetime.date` ordinals) -/

/-- `date.weekday()`: Monday = 0.  Ordinal 1 (January 1, year 1) is a Monday. -/
def pyWeekday (o : ℕ) : ℕ := (o + 6) % 7

def isLeapYear (y : ℕ) : Bool := (y % 4 = 0 && y % 100 ≠ 0) || y % 400 = 0

def daysInYear (y : ℕ) : ℕ := if isLeapYear y then 366 else 365

/-- Number of days strictly before January 1 of year `y` (so
`toordinal(date(y, 1, 1)) = daysBeforeYear y + 1`). -/
def daysBeforeYear (y : ℕ) : ℕ :=
  365 * (y - 1) + (y - 1) / 4 - (y - 1) / 100 + (y - 1) / 400

def jan1Ordinal (y : ℕ) : ℕ := daysBeforeYear y + 1

/-- The year an ordinal falls in, following CPython's `_ord2ymd`:
peel off 400-year (146097 days), 100-year (36524), 4-year (1461) and single
(365) cycles; the two `= 4` cases are December 31 of a leap year, which still
belongs to the year just completed. -/
def yearOf (o : ℕ) : ℕ :=
  if (o - 1) % 146097 % 36524 % 1461 / 365 = 4 ∨ (o - 1) % 146097 / 36524 = 4 then
    400 * ((o - 1) / 146097) + 100 * ((o - 1) % 146097 / 36524) +
      4 * ((o - 1) % 146097 % 36524 / 1461) + (o - 1) % 146097 % 36524 % 1461 / 365
  else
    400 * ((o - 1) / 146097) + 100 * ((o - 1) % 146097 / 36524) +
      4 * ((o - 1) % 146097 % 36524 / 1461) + (o - 1) % 146097 % 36524 % 1461 / 365 + 1

theorem daysBeforeYear_succ (y : ℕ) (hy : 1 ≤ y) :
    daysBeforeYear (y + 1) = daysBeforeYear y + daysInYear y := by
  unfold daysBeforeYear daysInYear isLeapYear
  split <;> rename_i h <;>
    simp only [Bool.or_eq_true, Bool.and_eq_true, decide_eq_true_eq,
      bne_iff_ne, ne_eq] at h <;> omega

theorem daysInYear_ge (y : ℕ) : 365 ≤ daysInYear y := by
  unfold daysInYear; split <;> omega

/-- Correctness of `yearOf`: day `d` of year `y` (with `1 ≤ d ≤ daysInYear y`)
is assigned year `y`. -/
theorem yearOf_eq (y d : ℕ) (hy : 1 ≤ y) (hd1 : 1 ≤ d) (hd2 : d ≤ daysInYear y) :
    yearOf (daysBeforeYear y + d) = y := by
  obtain ⟨a, b, c, e, hb, hc, he, hdec⟩ :
      ∃ a b c e, b ≤ 3 ∧ c ≤ 24 ∧ e ≤ 3 ∧ y - 1 = 400 * a + 100 * b + 4 * c + e :=
    ⟨(y - 1) / 400, (y - 1) % 400 / 100, (y - 1) % 400 % 100 / 4, (y - 1) % 400 % 100 % 4,
      by omega, by omega, by omega, by omega⟩
  have hdb : daysBeforeYear y = 146097 * a + 36524 * b + 1461 * c + 365 * e := by
    unfold daysBeforeYear; omega
  have hcase : d ≤ 365 ∨ (d = 366 ∧ e = 3 ∧ (c ≠ 24 ∨ b = 3)) := by
    unfold daysInYear isLeapYear at hd2
    split at hd2 <;> rename_i h <;>
      simp only [Bool.or_eq_true, Bool.and_eq_true, decide_eq_true_eq,
        bne_iff_ne, ne_eq] at h <;> omega
  rw [hdb]
  by_cases hsp : b = 3 ∧ c = 24 ∧ e = 3 ∧ d = 366
  · obtain ⟨hb3, hc24, he3, hd366⟩ := hsp
    subst hb3; subst hc24; subst he3; subst hd366
    unfold yearOf
    split <;> omega
  · have k1 : (146097 * a + 36524 * b + 1461 * c + 365 * e + d - 1) / 146097 = a := by omega
    have k2 : (146097 * a + 36524 * b + 1461 * c + 365 * e + d - 1) % 146097 =
        36524 * b + 1461 * c + 365 * e + d - 1 := by omega
    have k3 : (36524 * b + 1461 * c + 365 * e + d - 1) / 36524 = b := by omega
    have k4 : (36524 * b + 1461 * c + 365 * e + d - 1) % 36524 =
        1461 * c + 365 * e + d - 1 := by omega
    have k5 : (1461 * c + 365 * e + d - 1) / 1461 = c := by omega
    have k6 : (1461 * c + 365 * e + d - 1) % 1461 = 365 * e + d - 1 := by omega
    unfold yearOf
    rw [k2, k4, k6]
    split <;> omega

/-! ## Week resolution (`fetch_weekly_traffic_data`, lines 261-272)

The date-resolution logic of `fetch_weekly_traffic_data` for a single
requested week:

    jan_1 = datetime(year, 1, 1)
    week_1_start = jan_1 - timedelta(days=jan_1.weekday())
    if week_1_start.year < year:
        week_1_start += timedelta(weeks=1)
    week_start = week_1_start + timedelta(weeks=week_num-1)
    week_end = week_start + timedelta(days=6)
    if week_start.year != year or week_end.year != year:
        continue

`resolveWeek` returns `none` when the `continue` branch skips the week, and
`some (week_start, week_end)` (as ordinals) otherwise. -/

/-- `week_1_start` after the adjustment step. -/
def week1Start (year : ℕ) : ℕ :=
  if yearOf (jan1Ordinal year - pyWeekday (jan1Ordinal year)) < year then
    jan1Ordinal year - pyWeekday (jan1Ordinal year) + 7
  else
    jan1Ordinal year - pyWeekday (jan1Ordinal year)

/-- `week_start` for week number `n`. -/
def weekStartOf (year n : ℕ) : ℕ := week1Start year + 7 * (n - 1)

/-- The `[week_start, week_end]` range, or `none` when the week is skipped. -/
def resolveWeek (year n : ℕ) : Option (ℕ × ℕ) :=
  if yearOf (weekStartOf year n) ≠ year ∨ yearOf (weekStartOf year n + 6) ≠ year then
    none
  else
    some (weekStartOf year n, weekStartOf year n + 6)

/-- The spec's `first_monday(year)`: the earliest Monday on or after
January 1 of `year` (this definition follows the spec's wording; the
theorems below compare it with the code's `week_1_start`). -/
def specFirstMonday (y : ℕ) : ℕ :=
  jan1Ordinal y + (7 - pyWeekday (jan1Ordinal y)) % 7

theorem yearOf_jan1 (y : ℕ) (hy : 1 ≤ y) : yearOf (jan1Ordinal y) = y := by
  unfold jan1Ordinal
  exact yearOf_eq y 1 hy le_rfl (by have := daysInYear_ge y; omega)

theorem week1Start_eq (y : ℕ) (hy : 2 ≤ y) : week1Start y = specFirstMonday y := by
  have hge : 365 ≤ daysInYear (y - 1) := daysInYear_ge (y - 1)
  have hJ : yearOf (jan1Ordinal y) = y := yearOf_jan1 y (by omega)
  have hw6 : pyWeekday (jan1Ordinal y) ≤ 6 := by unfold pyWeekday; omega
  have hjan : jan1Ordinal y = daysBeforeYear y + 1 := rfl
  have hsplit : daysBeforeYear y = daysBeforeYear (y - 1) + daysInYear (y - 1) := by
    have h := daysBeforeYear_succ (y - 1) (by omega)
    rw [Nat.sub_add_cancel (by omega)] at h
    exact h
  by_cases h0 : pyWeekday (jan1Ordinal y) = 0
  · unfold week1Start specFirstMonday
    rw [h0]
    simp only [Nat.sub_zero]
    rw [hJ]
    simp
  · have hprev : yearOf (jan1Ordinal y - pyWeekday (jan1Ordinal y)) = y - 1 := by
      have harg : jan1Ordinal y - pyWeekday (jan1Ordinal y) =
          daysBeforeYear (y - 1) + (daysInYear (y - 1) + 1 - pyWeekday (jan1Ordinal y)) := by
        omega
      rw [harg]
      exact yearOf_eq (y - 1) _ (by omega) (by omega) (by omega)
    unfold week1Start specFirstMonday
    rw [hprev, if_pos (by omega)]
    omega

theorem specFirstMonday_bounds (y : ℕ) :
    jan1Ordinal y ≤ specFirstMonday y ∧ specFirstMonday y ≤ jan1Ordinal y + 6 := by
  unfold specFirstMonday
  omega

theorem pyWeekday_specFirstMonday (y : ℕ) : pyWeekday (specFirstMonday y) = 0 := by
  unfold specFirstMonday pyWeekday
  omega

theorem yearOf_weekStartOf (year n : ℕ) (hy : 2 ≤ year) (h1 : 1 ≤ n) (h2 : n ≤ 52) :
    yearOf (weekStartOf year n) = year := by
  have hb := specFirstMonday_bounds year
  have hd := daysInYear_ge year
  have hjan : jan1Ordinal year = daysBeforeYear year + 1 := rfl
  have hws : weekStartOf year n = week1Start year + 7 * (n - 1) := rfl
  rw [week1Start_eq year hy] at hws
  have harg : weekStartOf year n =
      daysBeforeYear year + (weekStartOf year n - daysBeforeYear year) := by omega
  rw [harg]
  exact yearOf_eq year _ (by omega) (by omega) (by omega)

/-- C2: for a valid request (year ≥ 2019, week 1..52) whose week is resolvable,
`week_start` equals `first_monday(year) + (n-1)` weeks where `first_monday` is
the earliest Monday on or after January 1 (it lies in the first seven days of
the year and is a Monday), `week_start` falls on a Monday, and
`week_end = week_start + 6` days. -/
theorem resolveWeek_monday_spec (year n : ℕ) (hy : 2019 ≤ year) (h1 : 1 ≤ n) (h2 : n ≤ 52)
    (s e : ℕ) (h : resolveWeek year n = some (s, e)) :
    s = specFirstMonday year + 7 * (n - 1) ∧ pyWeekday s = 0 ∧ e = s + 6 ∧
      jan1Ordinal year ≤ specFirstMonday year ∧ specFirstMonday year ≤ jan1Ordinal year + 6 ∧
      pyWeekday (specFirstMonday year) = 0 := by
  have hb := specFirstMonday_bounds year
  have hmon := pyWeekday_specFirstMonday year
  have hws : weekStartOf year n = specFirstMonday year + 7 * (n - 1) := by
    unfold weekStartOf
    rw [week1Start_eq year (by omega)]
  unfold resolveWeek at h
  split at h
  · exact absurd h (by simp)
  · have hse : s = weekStartOf year n ∧ e = weekStartOf year n + 6 := by
      injection h with h'
      injection h' with ha hb
      exact ⟨ha.symm, hb.symm⟩
    refine ⟨by rw [hse.1, hws], ?_, by omega, hb.1, hb.2, hmon⟩
    rw [hse.1, hws]
    unfold pyWeekday at hmon ⊢
    omega

theorem resolveWeek_monday_spec_witness :
    resolveWeek 2019 1 = some (737066, 737072) ∧
      (737066 = specFirstMonday 2019 + 7 * (1 - 1) ∧ pyWeekday 737066 = 0 ∧
        737072 = 737066 + 6 ∧ jan1Ordinal 2019 ≤ specFirstMonday 2019 ∧
        specFirstMonday 2019 ≤ jan1Ordinal 2019 + 6 ∧
        pyWeekday (specFirstMonday 2019) = 0) :=
  ⟨by decide, resolveWeek_monday_spec 2019 1 (by decide) (by decide) (by decide)
    737066 737072 (by decide)⟩

/-- C3 counterexample: for year 2019, week 52, the computed `week_start`
(December 30, 2019) lies in the requested year while `week_end` (January 5,
2020) does not; the claim then demands the week be included with `week_end`
clamped to December 31, but the code omits the week entirely (`continue`),
and no clamping exists on any path. -/
theorem resolveWeek_no_clamp_counterexample :
    resolveWeek 2019 52 = none ∧
      yearOf (weekStartOf 2019 52) = 2019 ∧
      yearOf (weekStartOf 2019 52 + 6) = 2020 := by
  refine ⟨by decide, by decide, by decide⟩

/-- C3 (amended): for valid requests (year ≥ 2019, week 1..52) `week_start`
always lies in the requested year; the week is omitted from the result set
(without error) exactly when `week_end` falls outside the requested year, and
there is no clamping: every returned week satisfies `week_end = week_start + 6`
with `week_end` inside the year. -/
theorem resolveWeek_skip_amended (year n : ℕ) (hy : 2019 ≤ year) (h1 : 1 ≤ n) (h2 : n ≤ 52) :
    yearOf (weekStartOf year n) = year ∧
      (resolveWeek year n = none ↔ yearOf (weekStartOf year n + 6) ≠ year) ∧
      (∀ s e, resolveWeek year n = some (s, e) → e = s + 6 ∧ yearOf e = year) := by
  have hstart : yearOf (weekStartOf year n) = year := yearOf_weekStartOf year n (by omega) h1 h2
  refine ⟨hstart, ?_, ?_⟩
  · unfold resolveWeek
    by_cases hend : yearOf (weekStartOf year n + 6) = year
    · rw [if_neg (by simp [hstart, hend])]
      simp [hend]
    · rw [if_pos (Or.inr hend)]
      simp [hend]
  · intro s e h
    unfold resolveWeek at h
    split at h
    · exact absurd h (by simp)
    · rename_i hcond
      have hse : s = weekStartOf year n ∧ e = weekStartOf year n + 6 := by
        injection h with h'
        injection h' with ha hb
        exact ⟨ha.symm, hb.symm⟩
      refine ⟨by omega, ?_⟩
      rw [hse.2]
      by_contra hne
      exact hcond (Or.inr hne)

theorem resolveWeek_skip_amended_witness :
    yearOf (weekStartOf 2019 1) = 2019 ∧
      (resolveWeek 2019 1 = none ↔ yearOf (weekStartOf 2019 1 + 6) ≠ 2019) ∧
      (∀ s e, resolveWeek 2019 1 = some (s, e) → e = s + 6 ∧ yearOf e = 2019) :=
  resolveWeek_skip_amended 2019 1 (by decide) (by decide) (by decide)

/-! ## Monthly aggregation (`sum_traffic_data`, lines 310-335)

    def sum_traffic_data(traffic_data_dict):
        monthly_sums = [0] * 12
        monthly_confidence = [{"lower": 0, "upper": 0} for _ in range(12)]
        for point_data in traffic_data_dict.values():
            for entry in point_data:
                month = entry["month"]
                try:
                    volume = entry["total"]["volume"]["average"]
                    if volume is not None:
                        monthly_sums[month - 1] += volume
                        if "confidenceInterval" in entry["total"]["volume"]:
                            ci = entry["total"]["volume"]["confidenceInterval"]
                            if ci["lowerBound"] and ci["upperBound"]:
                                monthly_confidence[month - 1]["lower"] += ci["lowerBound"]
                                monthly_confidence[month - 1]["upper"] += ci["upperBound"]
                    else:
                        logger.warning(...)
                except (KeyError, TypeError) as e:
                    logger.warning(...)
                    continue
        return monthly_sums, monthly_confidence

The state is the pair `(monthly_sums, monthly_confidence)`; a confidence dict
is modelled as a pair `(lower, upper)`.  Both lists are created with 12
entries and the month index is validated against `monthly_sums` (both lists
always have the same length on every reachable state, so one validation
decides both subscripts, as in the source). -/

/-- `entry["total"]["volume"]["average"]`. -/
def getAvg (entry : PyVal) : Except PyErr PyVal :=
  match dictGet entry "total" with
  | .error e => .error e
  | .ok t =>
    match dictGet t "volume" with
    | .error e => .error e
    | .ok v => dictGet v "average"

/-- `"confidenceInterval" in entry["total"]["volume"]`. -/
def hasCI (entry : PyVal) : Except PyErr Bool :=
  match dictGet entry "total" with
  | .error e => .error e
  | .ok t =>
    match dictGet t "volume" with
    | .error e => .error e
    | .ok v => pyContains v "confidenceInterval"

/-- `entry["total"]["volume"]["confidenceInterval"]`. -/
def getCI (entry : PyVal) : Except PyErr PyVal :=
  match dictGet entry "total" with
  | .error e => .error e
  | .ok t =>
    match dictGet t "volume" with
    | .error e => .error e
    | .ok v => dictGet v "confidenceInterval"

/-- The `try` block of one loop iteration.  An error carries the state at the
moment it is raised, because Python's in-place list mutations persist when an
exception is caught. -/
def tryBody (sums : List ℚ) (conf : List (ℚ × ℚ)) (month entry : PyVal) :
    Except (PyErr × (List ℚ × List (ℚ × ℚ))) (List ℚ × List (ℚ × ℚ)) :=
  match getAvg entry with
  | .error e => .error (e, (sums, conf))
  | .ok .vnone => .ok (sums, conf)
  | .ok avg =>
      match monthIdx month sums.length with
      | .error e => .error (e, (sums, conf))
      | .ok i =>
        match addNum (sums.getD i 0) avg with
        | .error e => .error (e, (sums, conf))
        | .ok s =>
          match hasCI entry with
          | .error e => .error (e, (sums.set i s, conf))
          | .ok b =>
            if b then
              match getCI entry with
              | .error e => .error (e, (sums.set i s, conf))
              | .ok ci =>
                match dictGet ci "lowerBound" with
                | .error e => .error (e, (sums.set i s, conf))
                | .ok lb =>
                  if pyTruthy lb then
                    match dictGet ci "upperBound" with
                    | .error e => .error (e, (sums.set i s, conf))
                    | .ok ub =>
                      if pyTruthy ub then
                        match addNum (conf.getD i (0, 0)).1 lb with
                        | .error e => .error (e, (sums.set i s, conf))
                        | .ok lo =>
                          match addNum ((conf.set i (lo, (conf.getD i (0, 0)).2)).getD i (0, 0)).2 ub with
                          | .error e => .error (e, (sums.set i s, conf.set i (lo, (conf.getD i (0, 0)).2)))
                          | .ok hi => .ok (sums.set i s, conf.set i (lo, hi))
                      else .ok (sums.set i s, conf)
                  else .ok (sums.set i s, conf)
            else .ok (sums.set i s, conf)

/-- One `for entry in point_data` iteration.  `entry["month"]` is evaluated
before the `try` block, so its failure propagates; inside the block only
`KeyError` and `TypeError` are caught (an `IndexError` from
`monthly_sums[month - 1]` propagates). -/
def procEntry (sums : List ℚ) (conf : List (ℚ × ℚ)) (entry : PyVal) :
    Except PyErr (List ℚ × List (ℚ × ℚ)) :=
  match dictGet entry "month" with
  | .error e => .error e
  | .ok month =>
    match tryBody sums conf month entry with
    | .ok st => .ok st
    | .error (e, st) =>
      if e = .keyError ∨ e = .typeError then .ok st else .error e

/-- The inner `for entry in point_data` loop. -/
def procEntries (sums : List ℚ) (conf : List (ℚ × ℚ)) :
    List PyVal → Except PyErr (List ℚ × List (ℚ × ℚ))
  | [] => .ok (sums, conf)
  | entry :: rest =>
    match procEntry sums conf entry with
    | .error e => .error e
    | .ok (s, c) => procEntries s c rest

/-- The outer `for point_data in traffic_data_dict.values()` loop. -/
def procPoints (sums : List ℚ) (conf : List (ℚ × ℚ)) :
    List (String × List PyVal) → Except PyErr (List ℚ × List (ℚ × ℚ))
  | [] => .ok (sums, conf)
  | (_, entries) :: rest =>
    match procEntries sums conf entries with
    | .error e => .error e
    | .ok (s, c) => procPoints s c rest

/-- `sum_traffic_data` over a mapping sensor-point → list of per-month
entries.  The normal return value is the pair
`(monthly_sums, monthly_confidence)`; `.error` models an uncaught exception. -/
def sum_traffic_data (traffic_data_dict : List (String × List PyVal)) :
    Except PyErr (List ℚ × List (ℚ × ℚ)) :=
  procPoints (List.replicate 12 0) (List.replicate 12 (0, 0)) traffic_data_dict

/-- A well-formed per-month API entry, as described by the data model:
`month` 1..12, a nullable `average`, and an optional `confidenceInterval`
object with nullable `lowerBound` / `upperBound`. -/
structure MonthlyRecord where
  month : ℕ
  average : Option ℚ
  ci : Option (Option ℚ × Option ℚ)
deriving DecidableEq

/-- A nullable JSON number. -/
def optNum : Option ℚ → PyVal
  | none => .vnone
  | some q => .vnum q

/-- The JSON shape `byMonth` entries have on the wire. -/
def MonthlyRecord.toPyVal (r : MonthlyRecord) : PyVal :=
  .vdict [("month", .vint (r.month : ℤ)),
    ("total", .vdict [("volume", .vdict
      (("average", optNum r.average) ::
        (match r.ci with
         | none => []
         | some b => [("confidenceInterval",
             .vdict [("lowerBound", optNum b.1), ("upperBound", optNum b.2)])])))])]

/-- Encode a mapping sensor-point → well-formed records as the Python input. -/
def encodeDict (d : List (String × List MonthlyRecord)) : List (String × List PyVal) :=
  d.map fun p => (p.1, p.2.map MonthlyRecord.toPyVal)

/-- All records of all sensors, in iteration order. -/
def allRecords (d : List (String × List MonthlyRecord)) : List MonthlyRecord :=
  (d.map Prod.snd).flatten

/-- What one record does to `monthly_sums`. -/
def stepSums (sums : List ℚ) (r : MonthlyRecord) : List ℚ :=
  match r.average with
  | none => sums
  | some v => sums.set (r.month - 1) (sums.getD (r.month - 1) 0 + v)

/-- A record's contribution to the claimed month-`m` sum: its `average_volume`
exactly when it reports month `m` with a non-null value. -/
def monthContrib (m : ℕ) (r : MonthlyRecord) : Option ℚ :=
  if r.month = m then r.average else none

/-- The claimed month-`m` total: the sum of `average_volume` over exactly the
records for month `m` whose value is non-null. -/
def specMonthSum (rs : List MonthlyRecord) (m : ℕ) : ℚ :=
  (rs.filterMap (monthContrib m)).sum

/-- A record's contribution to the month-`m` confidence bounds as the code
computes it: only when its average is non-null, a `confidenceInterval` is
present, and both bounds are truthy (non-null and nonzero). -/
def confContrib (m : ℕ) (r : MonthlyRecord) : Option (ℚ × ℚ) :=
  if r.month = m ∧ r.average.isSome then
    match r.ci with
    | some (some lb, some ub) => if lb ≠ 0 ∧ ub ≠ 0 then some (lb, ub) else none
    | _ => none
  else none

/-- What one record does to `monthly_confidence`: its own month's bounds are
incremented exactly when it contributes (`confContrib` at its own month). -/
def stepConf (conf : List (ℚ × ℚ)) (r : MonthlyRecord) : List (ℚ × ℚ) :=
  match confContrib r.month r with
  | none => conf
  | some (lb, ub) =>
    conf.set (r.month - 1)
      ((conf.getD (r.month - 1) (0, 0)).1 + lb, (conf.getD (r.month - 1) (0, 0)).2 + ub)

def specConfLower (rs : List MonthlyRecord) (m : ℕ) : ℚ :=
  ((rs.filterMap (confContrib m)).map Prod.fst).sum

def specConfUpper (rs : List MonthlyRecord) (m : ℕ) : ℚ :=
  ((rs.filterMap (confContrib m)).map Prod.snd).sum

/-- A record's contribution to the month-`m` confidence bounds as claim C4
states it: whenever both bounds are present and non-null. -/
def claimConfContrib (m : ℕ) (r : MonthlyRecord) : Option (ℚ × ℚ) :=
  if r.month = m then
    match r.ci with
    | some (some lb, some ub) => some (lb, ub)
    | _ => none
  else none

def claimConfLower (rs : List MonthlyRecord) (m : ℕ) : ℚ :=
  ((rs.filterMap (claimConfContrib m)).map Prod.fst).sum

def claimConfUpper (rs : List MonthlyRecord) (m : ℕ) : ℚ :=
  ((rs.filterMap (claimConfContrib m)).map Prod.snd).sum

theorem getD_set_self {α : Type} (l : List α) (i : ℕ) (a d : α) (h : i < l.length) :
    (l.set i a).getD i d = a := by
  induction l generalizing i with
  | nil => simp at h
  | cons x xs ih =>
    cases i with
    | zero => rfl
    | succ j => exact ih j (by simpa using h)

theorem getElem?_set_self {α : Type} (l : List α) (i : ℕ) (a : α) (h : i < l.length) :
    (l.set i a)[i]? = some a := by
  induction l generalizing i with
  | nil => simp at h
  | cons x xs ih =>
    cases i with
    | zero => simp
    | succ j => simpa using ih j (by simpa using h)

theorem getD_set_other {α : Type} (l : List α) (i j : ℕ) (a d : α) (h : i ≠ j) :
    (l.set i a).getD j d = l.getD j d := by
  induction l generalizing i j with
  | nil => simp [List.set]
  | cons x xs ih =>
    cases i with
    | zero => cases j with
      | zero => exact absurd rfl h
      | succ k => rfl
    | succ i' => cases j with
      | zero => rfl
      | succ k => exact ih i' k (by omega)

theorem dictGet_month (r : MonthlyRecord) :
    dictGet r.toPyVal "month" = .ok (.vint (r.month : ℤ)) := rfl

theorem getAvg_toPyVal (r : MonthlyRecord) :
    getAvg r.toPyVal = .ok (optNum r.average) := rfl

theorem hasCI_toPyVal (r : MonthlyRecord) :
    hasCI r.toPyVal = .ok r.ci.isSome := by
  obtain ⟨m, avg, ci⟩ := r
  cases ci <;> rfl

theorem getCI_toPyVal (r : MonthlyRecord) (b : Option ℚ × Option ℚ) (h : r.ci = some b) :
    getCI r.toPyVal =
      .ok (.vdict [("lowerBound", optNum b.1), ("upperBound", optNum b.2)]) := by
  obtain ⟨m, avg, ci⟩ := r
  cases h
  rfl

theorem monthIdx_vint (m len : ℕ) (h1 : 1 ≤ m) (h2 : m ≤ len) :
    monthIdx (.vint (m : ℤ)) len = .ok (m - 1) := by
  have h0 : (0 : ℤ) ≤ (m : ℤ) - 1 := by omega
  have hlt : (m : ℤ) - 1 < (len : ℤ) := by omega
  simp only [monthIdx, pyListIdx, if_pos h0, if_pos hlt]
  congr 1
  omega

/-- What one loop iteration does to the state, on a well-formed record. -/
theorem procEntry_toPyVal (sums : List ℚ) (conf : List (ℚ × ℚ)) (r : MonthlyRecord)
    (hs : sums.length = 12) (hc : conf.length = 12) (hm1 : 1 ≤ r.month) (hm2 : r.month ≤ 12) :
    procEntry sums conf r.toPyVal = .ok (stepSums sums r, stepConf conf r) := by
  obtain ⟨m, avg, ci⟩ := r
  simp only at hm1 hm2
  have hidx : monthIdx (.vint (m : ℤ)) sums.length = .ok (m - 1) :=
    monthIdx_vint m sums.length hm1 (by omega)
  have hgd : ∀ p : ℚ × ℚ, (conf.set (m - 1) p)[m - 1]? = some p :=
    fun p => getElem?_set_self conf (m - 1) p (by omega)
  cases avg with
  | none =>
    cases ci with
    | none =>
      simp [procEntry, tryBody, MonthlyRecord.toPyVal, getAvg, hasCI, getCI, dictGet,
        findVal, pyContains, optNum, addNum, pyTruthy, stepSums, stepConf, confContrib]
    | some b =>
      obtain ⟨lbo, ubo⟩ := b
      simp [procEntry, tryBody, MonthlyRecord.toPyVal, getAvg, hasCI, getCI, dictGet,
        findVal, pyContains, optNum, addNum, pyTruthy, stepSums, stepConf, confContrib]
  | some v =>
    cases ci with
    | none =>
      simp [procEntry, tryBody, MonthlyRecord.toPyVal, getAvg, hasCI, getCI, dictGet,
        findVal, pyContains, optNum, addNum, pyTruthy, stepSums, stepConf, confContrib,
        hidx]
    | some b =>
      obtain ⟨lbo, ubo⟩ := b
      cases lbo with
      | none =>
        simp [procEntry, tryBody, MonthlyRecord.toPyVal, getAvg, hasCI, getCI, dictGet,
          findVal, pyContains, optNum, addNum, pyTruthy, stepSums, stepConf, confContrib,
          hidx]
      | some lb =>
        cases ubo with
        | none =>
          by_cases hlb0 : lb = 0 <;>
            simp [procEntry, tryBody, MonthlyRecord.toPyVal, getAvg, hasCI, getCI, dictGet,
              findVal, pyContains, optNum, addNum, pyTruthy, stepSums, stepConf, confContrib,
              hidx, hlb0]
        | some ub =>
          by_cases hlb0 : lb = 0
          · simp [procEntry, tryBody, MonthlyRecord.toPyVal, getAvg, hasCI, getCI, dictGet,
              findVal, pyContains, optNum, addNum, pyTruthy, stepSums, stepConf, confContrib,
              hidx, hlb0]
          · by_cases hub0 : ub = 0 <;>
              simp [procEntry, tryBody, MonthlyRecord.toPyVal, getAvg, hasCI, getCI, dictGet,
                findVal, pyContains, optNum, addNum, pyTruthy, stepSums, stepConf, confContrib,
                hidx, hlb0, hub0, hgd]

theorem length_stepSums (sums : List ℚ) (r : MonthlyRecord) :
    (stepSums sums r).length = sums.length := by
  unfold stepSums
  cases r.average <;> simp

theorem length_stepConf (conf : List (ℚ × ℚ)) (r : MonthlyRecord) :
    (stepConf conf r).length = conf.length := by
  unfold stepConf
  cases hcc : confContrib r.month r with
  | none => rfl
  | some p => obtain ⟨lb, ub⟩ := p; simp

theorem length_foldl_stepSums (rs : List MonthlyRecord) (sums : List ℚ) :
    (rs.foldl stepSums sums).length = sums.length := by
  induction rs generalizing sums with
  | nil => rfl
  | cons r rs ih => rw [List.foldl_cons, ih, length_stepSums]

theorem length_foldl_stepConf (rs : List MonthlyRecord) (conf : List (ℚ × ℚ)) :
    (rs.foldl stepConf conf).length = conf.length := by
  induction rs generalizing conf with
  | nil => rfl
  | cons r rs ih => rw [List.foldl_cons, ih, length_stepConf]

theorem stepSums_getD (sums : List ℚ) (r : MonthlyRecord) (hs : sums.length = 12)
    (hm1 : 1 ≤ r.month) (hm2 : r.month ≤ 12) (i : ℕ) (hi : i < 12) :
    (stepSums sums r).getD i 0 = sums.getD i 0 + (monthContrib (i + 1) r).getD 0 := by
  unfold stepSums monthContrib
  cases havg : r.average with
  | none => by_cases hm : r.month = i + 1 <;> simp [hm]
  | some v =>
    by_cases hm : r.month = i + 1
    · have hix : r.month - 1 = i := by omega
      rw [hix, if_pos hm, getD_set_self sums i _ 0 (by omega)]
      simp
    · rw [if_neg hm, getD_set_other sums (r.month - 1) i _ 0 (by omega)]
      simp

theorem stepConf_getD (conf : List (ℚ × ℚ)) (r : MonthlyRecord) (hc : conf.length = 12)
    (hm1 : 1 ≤ r.month) (hm2 : r.month ≤ 12) (i : ℕ) (hi : i < 12) :
    (stepConf conf r).getD i (0, 0) =
      ((conf.getD i (0, 0)).1 + ((confContrib (i + 1) r).getD (0, 0)).1,
       (conf.getD i (0, 0)).2 + ((confContrib (i + 1) r).getD (0, 0)).2) := by
  unfold stepConf
  by_cases hm : r.month = i + 1
  · rw [hm] at *
    have hix : i + 1 - 1 = i := by omega
    cases hcc : confContrib (i + 1) r with
    | none => simp
    | some p =>
      obtain ⟨lb, ub⟩ := p
      rw [hix, getD_set_self conf i _ (0, 0) (by omega)]
      rfl
  · have hnone : confContrib (i + 1) r = none := by
      unfold confContrib
      rw [if_neg]
      intro hand
      exact hm hand.1
    rw [hnone]
    cases hcc : confContrib r.month r with
    | none => simp
    | some p =>
      obtain ⟨lb, ub⟩ := p
      rw [getD_set_other conf (r.month - 1) i _ (0, 0) (by omega)]
      simp

theorem foldl_stepSums_getD (rs : List MonthlyRecord) (sums : List ℚ) (hs : sums.length = 12)
    (hwf : ∀ r ∈ rs, 1 ≤ r.month ∧ r.month ≤ 12) (i : ℕ) (hi : i < 12) :
    (rs.foldl stepSums sums).getD i 0 = sums.getD i 0 + specMonthSum rs (i + 1) := by
  induction rs generalizing sums with
  | nil => simp [specMonthSum]
  | cons r rs ih =>
    have hr := hwf r (List.mem_cons_self r rs)
    rw [List.foldl_cons,
      ih (stepSums sums r) (by rw [length_stepSums]; exact hs)
        (fun x hx => hwf x (List.mem_cons_of_mem r hx)),
      stepSums_getD sums r hs hr.1 hr.2 i hi]
    unfold specMonthSum
    cases h : monthContrib (i + 1) r with
    | none => simp [List.filterMap_cons, h]
    | some q =>
      simp only [List.filterMap_cons, h, List.sum_cons, Option.getD_some]
      ring

theorem foldl_stepConf_getD (rs : List MonthlyRecord) (conf : List (ℚ × ℚ))
    (hc : conf.length = 12) (hwf : ∀ r ∈ rs, 1 ≤ r.month ∧ r.month ≤ 12) (i : ℕ)
    (hi : i < 12) :
    (rs.foldl stepConf conf).getD i (0, 0) =
      ((conf.getD i (0, 0)).1 + specConfLower rs (i + 1),
       (conf.getD i (0, 0)).2 + specConfUpper rs (i + 1)) := by
  induction rs generalizing conf with
  | nil => simp [specConfLower, specConfUpper]
  | cons r rs ih =>
    have hr := hwf r (List.mem_cons_self r rs)
    rw [List.foldl_cons,
      ih (stepConf conf r) (by rw [length_stepConf]; exact hc)
        (fun x hx => hwf x (List.mem_cons_of_mem r hx)),
      stepConf_getD conf r hc hr.1 hr.2 i hi]
    unfold specConfLower specConfUpper
    cases h : confContrib (i + 1) r with
    | none => simp [List.filterMap_cons, h]
    | some p =>
      obtain ⟨lb, ub⟩ := p
      simp only [List.filterMap_cons, h, List.map_cons, List.sum_cons, Option.getD_some,
        Prod.mk.injEq]
      constructor <;> ring

theorem procEntries_encoded (rs : List MonthlyRecord) (sums : List ℚ) (conf : List (ℚ × ℚ))
    (hs : sums.length = 12) (hc : conf.length = 12)
    (hwf : ∀ r ∈ rs, 1 ≤ r.month ∧ r.month ≤ 12) :
    procEntries sums conf (rs.map MonthlyRecord.toPyVal) =
      .ok (rs.foldl stepSums sums, rs.foldl stepConf conf) := by
  induction rs generalizing sums conf with
  | nil => rfl
  | cons r rs ih =>
    have hr := hwf r (List.mem_cons_self r rs)
    rw [List.map_cons]
    unfold procEntries
    rw [procEntry_toPyVal sums conf r hs hc hr.1 hr.2]
    exact ih (stepSums sums r) (stepConf conf r) (by rw [length_stepSums]; exact hs)
      (by rw [length_stepConf]; exact hc) (fun x hx => hwf x (List.mem_cons_of_mem r hx))

theorem procPoints_encoded (d : List (String × List MonthlyRecord)) (sums : List ℚ)
    (conf : List (ℚ × ℚ)) (hs : sums.length = 12) (hc : conf.length = 12)
    (hwf : ∀ p ∈ d, ∀ r ∈ p.2, 1 ≤ r.month ∧ r.month ≤ 12) :
    procPoints sums conf (encodeDict d) =
      .ok ((allRecords d).foldl stepSums sums, (allRecords d).foldl stepConf conf) := by
  induction d generalizing sums conf with
  | nil => rfl
  | cons p d ih =>
    obtain ⟨name, rs⟩ := p
    have hhead : ∀ r ∈ rs, 1 ≤ r.month ∧ r.month ≤ 12 :=
      fun r hr => hwf (name, rs) (List.mem_cons_self _ _) r hr
    show procPoints sums conf ((name, rs.map MonthlyRecord.toPyVal) :: encodeDict d) = _
    unfold procPoints
    rw [procEntries_encoded rs sums conf hs hc hhead]
    dsimp only
    rw [ih (rs.foldl stepSums sums) (rs.foldl stepConf conf)
      (by rw [length_foldl_stepSums]; exact hs) (by rw [length_foldl_stepConf]; exact hc)
      (fun q hq r hr => hwf q (List.mem_cons_of_mem _ hq) r hr)]
    simp [allRecords, List.foldl_append]

theorem getD_replicate_self {α : Type} (n i : ℕ) (a : α) :
    (List.replicate n a).getD i a = a := by
  induction n generalizing i with
  | zero => simp
  | succ k ih =>
    cases i with
    | zero => rfl
    | succ j => exact ih j

theorem get?_eq_some_getD {α : Type} (l : List α) (i : ℕ) (d : α) (h : i < l.length) :
    l.get? i = some (l.getD i d) := by
  induction l generalizing i with
  | nil => simp at h
  | cons x xs ih =>
    cases i with
    | zero => rfl
    | succ j => simpa using ih j (by simpa using h)

theorem allRecords_wf (d : List (String × List MonthlyRecord))
    (hwf : ∀ p ∈ d, ∀ r ∈ p.2, 1 ≤ r.month ∧ r.month ≤ 12) :
    ∀ r ∈ allRecords d, 1 ≤ r.month ∧ r.month ≤ 12 := by
  intro r hr
  unfold allRecords at hr
  rw [List.mem_flatten] at hr
  obtain ⟨l, hl, hrl⟩ := hr
  rw [List.mem_map] at hl
  obtain ⟨p, hp, rfl⟩ := hl
  exact hwf p hp r hrl

/-- C1: on a mapping of sensor points to (well-formed) monthly record
sequences, `sum_traffic_data` returns normally; its first component is a
series of exactly 12 monthly sums in which, for each month 1..12, the value
is the sum of `average_volume` over exactly those records for that month
whose value is non-null (so a month with zero contributing sensors holds the
number 0, never null). -/
theorem sum_traffic_data_monthly_sums (d : List (String × List MonthlyRecord))
    (hwf : ∀ p ∈ d, ∀ r ∈ p.2, 1 ≤ r.month ∧ r.month ≤ 12) :
    ∃ sums conf, sum_traffic_data (encodeDict d) = .ok (sums, conf) ∧
      sums.length = 12 ∧
      ∀ m : ℕ, 1 ≤ m → m ≤ 12 →
        sums.get? (m - 1) = some (specMonthSum (allRecords d) m) := by
  have hwf' := allRecords_wf d hwf
  have hrun := procPoints_encoded d (List.replicate 12 0) (List.replicate 12 (0, 0))
    (by simp) (by simp) hwf
  refine ⟨_, _, hrun, by rw [length_foldl_stepSums]; simp, ?_⟩
  intro m hm1 hm2
  have hlen : ((allRecords d).foldl stepSums (List.replicate 12 0)).length = 12 := by
    rw [length_foldl_stepSums]; simp
  rw [get?_eq_some_getD _ (m - 1) 0 (by omega)]
  rw [foldl_stepSums_getD (allRecords d) (List.replicate 12 0) (by simp) hwf' (m - 1) (by omega)]
  rw [getD_replicate_self]
  rw [show m - 1 + 1 = m by omega]
  rw [zero_add]

def c1Input : List (String × List MonthlyRecord) :=
  [("A", [⟨1, some 100, none⟩]), ("B", [⟨1, none, none⟩])]

theorem sum_traffic_data_monthly_sums_witness :
    (∃ sums conf, sum_traffic_data (encodeDict c1Input) = .ok (sums, conf) ∧
      sums.length = 12 ∧
      ∀ m : ℕ, 1 ≤ m → m ≤ 12 →
        sums.get? (m - 1) = some (specMonthSum (allRecords c1Input) m)) ∧
    specMonthSum (allRecords c1Input) 1 = 100 ∧
    specMonthSum (allRecords c1Input) 2 = 0 :=
  ⟨sum_traffic_data_monthly_sums c1Input (by decide),
    by simp [specMonthSum, allRecords, c1Input, monthContrib, List.filterMap_cons],
    by simp [specMonthSum, allRecords, c1Input, monthContrib, List.filterMap_cons]⟩

/-- C4 (amended): a record's confidence interval contributes to the month's
summed bounds exactly when its average is non-null, a `confidenceInterval`
object is present, and both bounds are truthy — non-null AND nonzero (a
present, non-null bound equal to 0 is dropped); when it contributes, lower
bounds are summed with lower bounds and upper bounds with upper bounds. -/
theorem sum_traffic_data_confidence_amended (d : List (String × List MonthlyRecord))
    (hwf : ∀ p ∈ d, ∀ r ∈ p.2, 1 ≤ r.month ∧ r.month ≤ 12)
    (m : ℕ) (hm1 : 1 ≤ m) (hm2 : m ≤ 12) :
    ∃ sums conf, sum_traffic_data (encodeDict d) = .ok (sums, conf) ∧
      conf.get? (m - 1) =
        some (specConfLower (allRecords d) m, specConfUpper (allRecords d) m) := by
  have hwf' := allRecords_wf d hwf
  have hrun := procPoints_encoded d (List.replicate 12 0) (List.replicate 12 (0, 0))
    (by simp) (by simp) hwf
  refine ⟨_, _, hrun, ?_⟩
  have hlen : ((allRecords d).foldl stepConf (List.replicate 12 (0, 0))).length = 12 := by
    rw [length_foldl_stepConf]; simp
  rw [get?_eq_some_getD _ (m - 1) (0, 0) (by omega)]
  rw [foldl_stepConf_getD (allRecords d) (List.replicate 12 (0, 0)) (by simp) hwf'
    (m - 1) (by omega)]
  rw [getD_replicate_self]
  rw [show m - 1 + 1 = m by omega]
  simp

def c4Input : List (String × List MonthlyRecord) :=
  [("A", [⟨1, some 100, some (some 0, some 50)⟩])]

/-- C4 counterexample: a sensor reporting month 1 with average 100 and a
confidence interval whose bounds are both present and non-null —
`lowerBound = 0`, `upperBound = 50`.  The claim says the interval contributes
(summed upper bound 50), but the code tests the bounds for truthiness, so the
zero lower bound suppresses the whole interval: the aggregated confidence
stays `(0, 0)`, and in particular the upper bound 0 differs from the claimed
50. -/
theorem confidence_zero_bound_counterexample :
    (∃ sums conf, sum_traffic_data (encodeDict c4Input) = .ok (sums, conf) ∧
      conf.get? 0 = some ((0 : ℚ), (0 : ℚ))) ∧
    claimConfLower (allRecords c4Input) 1 = 0 ∧
    claimConfUpper (allRecords c4Input) 1 = 50 ∧
    (50 : ℚ) ≠ 0 := by
  have hwf : ∀ p ∈ c4Input, ∀ r ∈ p.2, 1 ≤ r.month ∧ r.month ≤ 12 := by decide
  have hrun := procPoints_encoded c4Input (List.replicate 12 0) (List.replicate 12 (0, 0))
    (by simp) (by simp) hwf
  refine ⟨⟨_, _, hrun, ?_⟩, ?_, ?_, by norm_num⟩
  · rw [get?_eq_some_getD _ 0 (0, 0) (by rw [length_foldl_stepConf]; simp)]
    rw [foldl_stepConf_getD (allRecords c4Input) _ (by simp) (allRecords_wf c4Input hwf) 0
      (by norm_num)]
    rw [getD_replicate_self]
    simp [specConfLower, specConfUpper, allRecords, c4Input, confContrib,
      List.filterMap_cons]
  · simp [claimConfLower, allRecords, c4Input, claimConfContrib, List.filterMap_cons]
  · simp [claimConfUpper, allRecords, c4Input, claimConfContrib, List.filterMap_cons]

def c4wInput : List (String × List MonthlyRecord) :=
  [("A", [⟨1, some 100, some (some 2, some 5)⟩]), ("B", [⟨1, some 40, some (some 0, some 9)⟩])]

theorem sum_traffic_data_confidence_amended_witness :
    (∃ sums conf, sum_traffic_data (encodeDict c4wInput) = .ok (sums, conf) ∧
      conf.get? 0 =
        some (specConfLower (allRecords c4wInput) 1, specConfUpper (allRecords c4wInput) 1)) ∧
    specConfLower (allRecords c4wInput) 1 = 2 ∧
    specConfUpper (allRecords c4wInput) 1 = 5 :=
  ⟨sum_traffic_data_confidence_amended c4wInput (by decide) 1 (by decide) (by decide),
    by simp [specConfLower, allRecords, c4wInput, confContrib, List.filterMap_cons],
    by simp [specConfUpper, allRecords, c4wInput, confContrib, List.filterMap_cons]⟩

def isOkE {α : Type} : Except PyErr α → Bool
  | .ok _ => true
  | .error _ => false

/-- The errors caught by the `except (KeyError, TypeError)` clause. -/
def catchableErr : PyErr → Bool
  | .keyError => true
  | .typeError => true
  | .indexError => false

/-- An entry that the loop skips harmlessly: its `entry["month"]` lookup
succeeds, but the nested access `entry["total"]["volume"]["average"]` raises
a caught `KeyError`/`TypeError` before any sum is mutated. -/
def isSkipEntry (v : PyVal) : Bool :=
  isOkE (dictGet v "month") &&
    (match getAvg v with
     | .error e => catchableErr e
     | .ok _ => false)

/-- An entry that is a well-formed monthly record. -/
def isGoodEntry (v : PyVal) : Prop :=
  ∃ r : MonthlyRecord, 1 ≤ r.month ∧ r.month ≤ 12 ∧ v = r.toPyVal

theorem procEntry_skip (sums : List ℚ) (conf : List (ℚ × ℚ)) (v : PyVal)
    (h : isSkipEntry v = true) : procEntry sums conf v = .ok (sums, conf) := by
  unfold isSkipEntry at h
  unfold procEntry tryBody
  cases hm : dictGet v "month" with
  | error e => rw [hm] at h; simp [isOkE] at h
  | ok mo =>
    cases ha : getAvg v with
    | ok av => rw [ha] at h; simp at h
    | error e =>
      rw [ha] at h
      cases e with
      | keyError => simp
      | typeError => simp
      | indexError => simp [catchableErr] at h

theorem isSkipEntry_toPyVal (r : MonthlyRecord) : isSkipEntry r.toPyVal = false := by
  unfold isSkipEntry
  rw [getAvg_toPyVal r]
  simp

theorem procEntries_skip (entries : List PyVal) (sums : List ℚ) (conf : List (ℚ × ℚ))
    (hs : sums.length = 12) (hc : conf.length = 12)
    (h : ∀ v ∈ entries, isGoodEntry v ∨ isSkipEntry v = true) :
    ∃ s c, procEntries sums conf entries = .ok (s, c) ∧ s.length = 12 ∧ c.length = 12 ∧
      procEntries sums conf (entries.filter fun v => !isSkipEntry v) = .ok (s, c) := by
  induction entries generalizing sums conf with
  | nil => exact ⟨sums, conf, rfl, hs, hc, rfl⟩
  | cons v rest ih =>
    have htail : ∀ w ∈ rest, isGoodEntry w ∨ isSkipEntry w = true :=
      fun w hw => h w (List.mem_cons_of_mem v hw)
    rcases h v (List.mem_cons_self v rest) with hgood | hskip
    · obtain ⟨r, h1, h2, rfl⟩ := hgood
      have hpe := procEntry_toPyVal sums conf r hs hc h1 h2
      obtain ⟨s, c, hrun, hls, hlc, hfrun⟩ := ih (stepSums sums r) (stepConf conf r)
        (by rw [length_stepSums]; exact hs) (by rw [length_stepConf]; exact hc) htail
      have hfilter : (r.toPyVal :: rest).filter (fun v => !isSkipEntry v) =
          r.toPyVal :: rest.filter (fun v => !isSkipEntry v) := by
        simp [List.filter_cons, isSkipEntry_toPyVal r]
      refine ⟨s, c, ?_, hls, hlc, ?_⟩
      · unfold procEntries
        rw [hpe]
        exact hrun
      · rw [hfilter]
        unfold procEntries
        rw [hpe]
        exact hfrun
    · have hpe := procEntry_skip sums conf v hskip
      obtain ⟨s, c, hrun, hls, hlc, hfrun⟩ := ih sums conf hs hc htail
      have hfilter : (v :: rest).filter (fun v => !isSkipEntry v) =
          rest.filter (fun v => !isSkipEntry v) := by
        simp [List.filter_cons, hskip]
      refine ⟨s, c, ?_, hls, hlc, ?_⟩
      · unfold procEntries
        rw [hpe]
        exact hrun
      · rw [hfilter]
        exact hfrun

theorem procPoints_skip (d : List (String × List PyVal)) (sums : List ℚ)
    (conf : List (ℚ × ℚ)) (hs : sums.length = 12) (hc : conf.length = 12)
    (h : ∀ p ∈ d, ∀ v ∈ p.2, isGoodEntry v ∨ isSkipEntry v = true) :
    ∃ out, procPoints sums conf d = .ok out ∧
      procPoints sums conf (d.map fun p => (p.1, p.2.filter fun v => !isSkipEntry v)) =
        .ok out := by
  induction d generalizing sums conf with
  | nil => exact ⟨(sums, conf), rfl, rfl⟩
  | cons p d ih =>
    obtain ⟨name, entries⟩ := p
    obtain ⟨s, c, hrun, hls, hlc, hfrun⟩ := procEntries_skip entries sums conf hs hc
      (fun v hv => h (name, entries) (List.mem_cons_self _ _) v hv)
    obtain ⟨out, hrun2, hfrun2⟩ := ih s c hls hlc
      (fun q hq v hv => h q (List.mem_cons_of_mem _ hq) v hv)
    refine ⟨out, ?_, ?_⟩
    · unfold procPoints
      rw [hrun]
      exact hrun2
    · rw [List.map_cons]
      unfold procPoints
      rw [hfrun]
      exact hfrun2

/-- C10 counterexample: an entry of non-record shape — the empty dict `{}` —
has no `"month"` key; since `entry["month"]` is evaluated before the `try`
block, the `KeyError` propagates out of `sum_traffic_data` instead of the
entry being skipped. -/
theorem sum_traffic_data_raises_counterexample :
    sum_traffic_data [("A", [PyVal.vdict []])] = .error .keyError := rfl

/-- C10 (amended): `sum_traffic_data` is total over inputs whose entries are
either well-formed records or malformed only beneath the `"month"` key:
entries that do carry a `"month"` key and whose nested
`entry["total"]["volume"]["average"]` access raises a `KeyError`/`TypeError`
are skipped without exception and without affecting the sums, and the result
equals that on the input with those entries removed; however an entry whose
very `entry["month"]` lookup fails (e.g. a missing `"month"` key, or a
non-mapping entry) propagates its exception, because that lookup sits
before the `try` block. -/
theorem sum_traffic_data_skip_amended (d : List (String × List PyVal))
    (h : ∀ p ∈ d, ∀ v ∈ p.2, isGoodEntry v ∨ isSkipEntry v = true) :
    ∃ out, sum_traffic_data d = .ok out ∧
      sum_traffic_data (d.map fun p => (p.1, p.2.filter fun v => !isSkipEntry v)) =
        .ok out :=
  procPoints_skip d (List.replicate 12 0) (List.replicate 12 (0, 0)) (by simp) (by simp) h

def c10Input : List (String × List PyVal) :=
  [("A", [MonthlyRecord.toPyVal ⟨2, some 7, none⟩, PyVal.vdict [("month", .vint 3)]])]

theorem sum_traffic_data_skip_amended_witness :
    ∃ out, sum_traffic_data c10Input = .ok out ∧
      sum_traffic_data (c10Input.map fun p => (p.1, p.2.filter fun v => !isSkipEntry v)) =
        .ok out := by
  refine sum_traffic_data_skip_amended c10Input ?_
  intro p hp v hv
  simp only [c10Input, List.mem_singleton] at hp
  subst hp
  simp only [List.mem_cons, List.not_mem_nil, or_false] at hv
  rcases hv with rfl | rfl
  · exact Or.inl ⟨⟨2, some 7, none⟩, by decide, by decide, rfl⟩
  · exact Or.inr rfl

/-! ## Growth rates (`calculate_growth_rates`, lines 363-376)

    year_columns = [col for col in df.columns if col not in ["Month", "Month Name", "Week", "Volume"]]
    if len(year_columns) >= 2:
        for i in range(1, len(year_columns)):
            prev_year, curr_year = year_columns[i-1], year_columns[i]
            growth_df[f"Vekst {prev_year}-{curr_year} (%)"] = \
                ((df[curr_year] - df[prev_year]) / df[prev_year] * 100).round(1)

A data frame is modelled as its ordered list of (label, column) pairs; a cell
is a `PdVal`: a missing value (`NA`), a finite number, `±inf` or `NaN`
(pandas division by zero produces `inf` / `-inf` / `NaN`, not an error).
Rounding follows numpy's round-half-to-even. -/

inductive PdVal where
  | na
  | fin (q : ℚ)
  | inf
  | ninf
  | nan
deriving DecidableEq, Repr

/-- numpy rounding of a rational to an integer: nearest, ties to even. -/
def roundHalfEven (q : ℚ) : ℤ :=
  if q - ⌊q⌋ < 1 / 2 then ⌊q⌋
  else if 1 / 2 < q - ⌊q⌋ then ⌊q⌋ + 1
  else if ⌊q⌋ % 2 = 0 then ⌊q⌋ else ⌊q⌋ + 1

/-- `.round(1)`: one decimal place. -/
def round1 (q : ℚ) : ℚ := (roundHalfEven (q * 10) : ℚ) / 10

/-- `.round(2)`: two decimal places. -/
def round2 (q : ℚ) : ℚ := (roundHalfEven (q * 100) : ℚ) / 100

/-- Elementwise subtraction (NA and NaN propagate). -/
def pdSub : PdVal → PdVal → PdVal
  | .na, _ => .na
  | _, .na => .na
  | .nan, _ => .nan
  | _, .nan => .nan
  | .fin a, .fin b => .fin (a - b)
  | .inf, .inf => .nan
  | .inf, _ => .inf
  | _, .inf => .ninf
  | .ninf, .ninf => .nan
  | .ninf, _ => .ninf
  | _, .ninf => .inf

/-- Elementwise division with pandas/IEEE zero-division semantics:
`x/0` is `inf` for `x > 0`, `-inf` for `x < 0` and `NaN` for `x = 0`. -/
def pdDiv : PdVal → PdVal → PdVal
  | .na, _ => .na
  | _, .na => .na
  | .nan, _ => .nan
  | _, .nan => .nan
  | .fin a, .fin b =>
    if b = 0 then (if a = 0 then .nan else if 0 < a then .inf else .ninf)
    else .fin (a / b)
  | .inf, .fin b => if b < 0 then .ninf else .inf
  | .ninf, .fin b => if b < 0 then .inf else .ninf
  | .fin _, .inf => .fin 0
  | .fin _, .ninf => .fin 0
  | .inf, .inf => .nan
  | .inf, .ninf => .nan
  | .ninf, .inf => .nan
  | .ninf, .ninf => .nan

/-- Elementwise `* 100`. -/
def pdMul100 : PdVal → PdVal
  | .na => .na
  | .nan => .nan
  | .inf => .inf
  | .ninf => .ninf
  | .fin a => .fin (a * 100)

/-- Elementwise `.round(1)` (non-finite cells pass through). -/
def round1v : PdVal → PdVal
  | .fin a => .fin (round1 a)
  | x => x

/-- One growth cell: `((curr - prev) / prev * 100).round(1)`. -/
def growthVal (c p : PdVal) : PdVal := round1v (pdMul100 (pdDiv (pdSub c p) p))

def excludedGrowthCols : List String := ["Month", "Month Name", "Week", "Volume"]

/-- `[col for col in df.columns if col not in [...]]`. -/
def yearCols (df : List (String × List PdVal)) : List String :=
  (df.map Prod.fst).filter fun c => !excludedGrowthCols.contains c

/-- The `(year_columns[i-1], year_columns[i])` pairs, in column order. -/
def adjPairs : List String → List (String × String)
  | a :: b :: rest => (a, b) :: adjPairs (b :: rest)
  | _ => []

def growthColName (p c : String) : String := "Vekst " ++ p ++ "-" ++ c ++ " (%)"

/-- `df[c]`. -/
def colOf (df : List (String × List PdVal)) (c : String) : List PdVal :=
  (findVal df c).getD []

def calculate_growth_rates (df : List (String × List PdVal)) :
    List (String × List PdVal) :=
  if 2 ≤ (yearCols df).length then
    df ++ (adjPairs (yearCols df)).map fun pc =>
      (growthColName pc.1 pc.2, List.zipWith growthVal (colOf df pc.2) (colOf df pc.1))
  else df

theorem zipWith_get?_of {α β γ : Type} (f : α → β → γ) (xs : List α) (ys : List β)
    (i : ℕ) (a : α) (b : β) (ha : xs.get? i = some a) (hb : ys.get? i = some b) :
    (List.zipWith f xs ys).get? i = some (f a b) := by
  induction xs generalizing ys i with
  | nil => simp at ha
  | cons x xs ih =>
    cases ys with
    | nil => simp at hb
    | cons y ys =>
      cases i with
      | zero =>
        simp only [List.get?] at ha hb
        cases ha; cases hb
        rfl
      | succ j =>
        simpa using ih ys j (by simpa using ha) (by simpa using hb)

theorem get?_append_offset {α : Type} (l1 l2 : List α) (k : ℕ) :
    (l1 ++ l2).get? (l1.length + k) = l2.get? k := by
  induction l1 with
  | nil => simp
  | cons x xs ih => simpa [Nat.succ_add] using ih

theorem adjPairs_nil_of_short (l : List String) (h : l.length < 2) : adjPairs l = [] := by
  match l with
  | [] => rfl
  | [a] => rfl
  | a :: b :: rest => simp at h; omega

/-- C5 (amended): `calculate_growth_rates` appends one growth column per pair
of adjacent year columns in the frame's column order (its `k`-th growth
column comes from the `k`-th adjacent pair, NOT from sorting the years): the
column is labelled `Vekst prev-curr (%)` and each cell with finite inputs is
`(curr − prev)/prev × 100` rounded half-to-even to one decimal; when the
previous year's value is 0, the cell is a non-finite marker (`inf`, `-inf`
or `NaN`) — never the number 0 and never an exception. -/
theorem calculate_growth_rates_amended (df : List (String × List PdVal)) (k : ℕ)
    (p c : String) (hk : (adjPairs (yearCols df)).get? k = some (p, c)) (i : ℕ)
    (cv pv : ℚ) (hcv : (colOf df c).get? i = some (.fin cv))
    (hpv : (colOf df p).get? i = some (.fin pv)) :
    ∃ col, (calculate_growth_rates df).get? (df.length + k) =
        some (growthColName p c, col) ∧
      (pv ≠ 0 → col.get? i = some (.fin (round1 ((cv - pv) / pv * 100)))) ∧
      (pv = 0 → col.get? i ≠ some (.fin 0) ∧
        (col.get? i = some .inf ∨ col.get? i = some .ninf ∨ col.get? i = some .nan)) := by
  have hlen2 : 2 ≤ (yearCols df).length := by
    by_contra hlt
    rw [adjPairs_nil_of_short (yearCols df) (by omega)] at hk
    simp at hk
  unfold calculate_growth_rates
  rw [if_pos hlen2, get?_append_offset, List.get?_map, hk]
  refine ⟨_, rfl, ?_, ?_⟩
  · intro hpz
    rw [zipWith_get?_of growthVal _ _ i _ _ hcv hpv]
    simp [growthVal, pdSub, pdDiv, pdMul100, round1v, hpz]
  · intro hpz
    subst hpz
    rw [zipWith_get?_of growthVal _ _ i _ _ hcv hpv]
    rcases lt_trichotomy cv 0 with hcv0 | hcv0 | hcv0
    · simp [growthVal, pdSub, pdDiv, pdMul100, round1v, hcv0, not_lt_of_lt hcv0, ne_of_lt hcv0]
    · simp [growthVal, pdSub, pdDiv, pdMul100, round1v, hcv0]
    · simp [growthVal, pdSub, pdDiv, pdMul100, round1v, hcv0, ne_of_gt hcv0]

def c5Input : List (String × List PdVal) := [("2025", [.fin 150]), ("2024", [.fin 100])]

/-- C5 counterexample: a frame whose year columns appear as 2025, 2024 (the
user typed the years in descending order).  Ordered ascending by numeric year
label, the adjacent pair is (2024, 2025), so the claim demands the growth
column `Vekst 2024-2025 (%)` with value (150−100)/100×100 = 50.0.  The code
instead pairs adjacent *columns*: it produces only `Vekst 2025-2024 (%)`,
whose value is (100−150)/150×100 rounded = −33.3, and no `Vekst 2024-2025 (%)`
column exists. -/
theorem growth_rates_order_counterexample :
    findVal (calculate_growth_rates c5Input) "Vekst 2024-2025 (%)" = none ∧
    findVal (calculate_growth_rates c5Input) "Vekst 2025-2024 (%)" =
      some [PdVal.fin (-333 / 10)] := by
  constructor
  · rfl
  · show some [growthVal (PdVal.fin 100) (PdVal.fin 150)] = some [PdVal.fin (-333 / 10)]
    simp [growthVal, pdSub, pdDiv, pdMul100, round1v, round1, roundHalfEven]
    norm_num [Int.fract]

def c5wInput : List (String × List PdVal) := [("2024", [.fin 100]), ("2025", [.fin 150])]

theorem calculate_growth_rates_amended_witness :
    ∃ col, (calculate_growth_rates c5wInput).get? 2 = some (growthColName "2024" "2025", col) ∧
      col.get? 0 = some (PdVal.fin 50) := by
  obtain ⟨col, h1, h2, _⟩ :=
    calculate_growth_rates_amended c5wInput 0 "2024" "2025" rfl 0 150 100 rfl rfl
  refine ⟨col, h1, ?_⟩
  rw [h2 (by norm_num)]
  norm_num [round1, roundHalfEven]

/-! ## Seasonal patterns (`calculate_seasonal_patterns`, lines 378-397)

    if "Month" not in df.columns:
        return {}
    patterns = {}
    year_columns = [col for col in df.columns if col not in ["Month", "Month Name"]]
    for year in year_columns:
        if year in df.columns:              # always true
            yearly_data = df[year].values
            if len(yearly_data) == 12:
                patterns[year] = {
                    "vinter_snitt": np.mean([yearly_data[11], yearly_data[0], yearly_data[1]]),
                    "vår_snitt":   np.mean(yearly_data[2:5]),
                    "sommer_snitt": np.mean(yearly_data[5:8]),
                    "høst_snitt":  np.mean(yearly_data[8:11])}
    return patterns

Frames passed here hold numeric month totals, so columns are modelled as
lists of ℚ. -/

/-- The four seasonal means; fields model the Python keys `vinter_snitt`,
`vår_snitt`, `sommer_snitt`, `høst_snitt` (ASCII spellings, since Lean
identifiers cannot carry the Norwegian letters). -/
structure SeasonalPattern where
  vinter_snitt : ℚ
  vaar_snitt : ℚ
  sommer_snitt : ℚ
  hoest_snitt : ℚ
deriving DecidableEq, Repr

/-- `np.mean` of three values. -/
def npMean3 (a b c : ℚ) : ℚ := (a + b + c) / 3

def seasonalOf (data : List ℚ) : SeasonalPattern :=
  { vinter_snitt := npMean3 (data.getD 11 0) (data.getD 0 0) (data.getD 1 0)
    vaar_snitt := npMean3 (data.getD 2 0) (data.getD 3 0) (data.getD 4 0)
    sommer_snitt := npMean3 (data.getD 5 0) (data.getD 6 0) (data.getD 7 0)
    hoest_snitt := npMean3 (data.getD 8 0) (data.getD 9 0) (data.getD 10 0) }

def calculate_seasonal_patterns (df : List (String × List ℚ)) :
    List (String × SeasonalPattern) :=
  if "Month" ∈ df.map Prod.fst then
    (df.filter fun p => p.1 != "Month" && p.1 != "Month Name").filterMap fun p =>
      if p.2.length = 12 then some (p.1, seasonalOf p.2) else none
  else []

theorem seasonal_lookup_not_mem (rest : List (String × List ℚ)) (year : String)
    (h : year ∉ rest.map Prod.fst) :
    findVal ((rest.filter fun p => p.1 != "Month" && p.1 != "Month Name").filterMap fun p =>
      if p.2.length = 12 then some (p.1, seasonalOf p.2) else none) year = none := by
  induction rest with
  | nil => rfl
  | cons q rest ih =>
    obtain ⟨l, d⟩ := q
    have hl : l ≠ year := fun hly => h (by simp [hly])
    have hrest : year ∉ rest.map Prod.fst := fun hy => h (by simp [hy])
    rw [List.filter_cons]
    by_cases hcond : (l != "Month" && l != "Month Name") = true
    · rw [if_pos hcond, List.filterMap_cons]
      by_cases hlen : d.length = 12
      · simp only [hlen, if_pos]
        show findVal ((l, seasonalOf d) :: _) year = none
        unfold findVal
        rw [if_neg hl]
        exact ih hrest
      · simp only [if_neg hlen]
        exact ih hrest
    · rw [if_neg hcond]
      exact ih hrest

/-- C6: on a monthly frame (it has a `Month` column, labels are distinct),
a year column with exactly 12 monthly values yields for that year exactly the
four seasonal arithmetic means — winter = mean of December, January,
February; spring = March..May; summer = June..August; autumn =
September..November — and a year column without exactly 12 values is skipped
(absent from the result). -/
theorem calculate_seasonal_patterns_spec (df : List (String × List ℚ))
    (hM : "Month" ∈ df.map Prod.fst) (hN : (df.map Prod.fst).Nodup)
    (year : String) (data : List ℚ) (hmem : (year, data) ∈ df)
    (h1 : year ≠ "Month") (h2 : year ≠ "Month Name") :
    (data.length = 12 →
      findVal (calculate_seasonal_patterns df) year = some (seasonalOf data)) ∧
    (data.length ≠ 12 →
      findVal (calculate_seasonal_patterns df) year = none) := by
  unfold calculate_seasonal_patterns
  rw [if_pos hM]
  clear hM
  induction df with
  | nil => simp at hmem
  | cons q rest ih =>
    obtain ⟨l, d⟩ := q
    rcases List.mem_cons.1 hmem with heq | hmemr
    · injection heq with hl hd
      subst hl; subst hd
      have hys : year ∉ rest.map Prod.fst := by
        simpa using (List.nodup_cons.1 hN).1
      rw [List.filter_cons, if_pos (by simp [bne_iff_ne, h1, h2]), List.filterMap_cons]
      by_cases hlen : data.length = 12
      · simp only [hlen, if_pos]
        constructor
        · intro _
          show findVal ((year, seasonalOf data) :: _) year = some (seasonalOf data)
          unfold findVal
          rw [if_pos rfl]
        · intro hne
          exact absurd rfl hne
      · simp only [if_neg hlen]
        constructor
        · intro hl12
          exact absurd hl12 hlen
        · intro _
          exact seasonal_lookup_not_mem rest year hys
    · have hN' : (rest.map Prod.fst).Nodup := (List.nodup_cons.1 (by simpa using hN)).2
      have hl : l ≠ year := by
        intro hly
        have : year ∈ rest.map Prod.fst := by
          rw [List.mem_map]
          exact ⟨(year, data), hmemr, rfl⟩
        exact (List.nodup_cons.1 (by simpa using hN)).1 (hly ▸ this)
      have ihr := ih hN' hmemr
      rw [List.filter_cons]
      by_cases hcond : (l != "Month" && l != "Month Name") = true
      · rw [if_pos hcond, List.filterMap_cons]
        by_cases hlen : d.length = 12
        · simp only [hlen, if_pos]
          constructor
          · intro h12
            show findVal ((l, seasonalOf d) :: _) year = _
            unfold findVal
            rw [if_neg hl]
            exact ihr.1 h12
          · intro hne
            show findVal ((l, seasonalOf d) :: _) year = _
            unfold findVal
            rw [if_neg hl]
            exact ihr.2 hne
        · simp only [if_neg hlen]
          exact ihr
      · rw [if_neg hcond]
        exact ihr

def c6Input : List (String × List ℚ) :=
  [("Month", [1, 2, 3, 4, 5, 6, 7, 8, 9, 10, 11, 12]),
   ("2024", [1, 2, 3, 4, 5, 6, 7, 8, 9, 10, 11, 12]),
   ("2023", [1, 2, 3])]

theorem calculate_seasonal_patterns_spec_witness :
    findVal (calculate_seasonal_patterns c6Input) "2024" =
      some { vinter_snitt := 5, vaar_snitt := 4, sommer_snitt := 7, hoest_snitt := 10 } ∧
    findVal (calculate_seasonal_patterns c6Input) "2023" = none := by
  constructor
  · have h := (calculate_seasonal_patterns_spec c6Input (by simp [c6Input]) (by decide)
      "2024" [1, 2, 3, 4, 5, 6, 7, 8, 9, 10, 11, 12]
      (by simp [c6Input]) (by decide) (by decide)).1 rfl
    rw [h]
    norm_num [seasonalOf, npMean3]
  · exact (calculate_seasonal_patterns_spec c6Input (by simp [c6Input]) (by decide)
      "2023" [1, 2, 3] (by simp [c6Input]) (by decide) (by decide)).2 (by simp)

/-! ## Fetch client (`fetch_data`, lines 178-212)

    @st.cache_data(ttl=API_CACHE_TTL, show_spinner=False)
    def fetch_data(query):
        for attempt in range(API_MAX_RETRIES):
            try:
                response = requests.post(URL, json={"query": query}, timeout=API_TIMEOUT)
                response.raise_for_status()
                data = response.json()
                if "errors" in data:
                    st.error(f"GraphQL feil: {data['errors'][0]['message']}")
                    return None
                return data
            except requests.Timeout:
                if attempt == API_MAX_RETRIES - 1:
                    st.error("Forespørsel tok for lang tid. Prøv igjen senere.")
                    return None
            except requests.RequestException as e:
                if attempt == API_MAX_RETRIES - 1:
                    st.error(f"Kunne ikke hente data: {str(e)}")
                    return None
                time.sleep(API_RETRY_DELAY * (attempt + 1))

The network is modelled as an oracle giving each attempt's transport outcome;
`raise_for_status` failures are `requestError` (HTTPError is a
RequestException).  The result records the returned value (or an uncaught
exception, e.g. from `data['errors'][0]` on an empty error list) together
with the emitted user-visible effects (`st.error` notices and sleeps). -/

def API_TIMEOUT : ℕ := 15
def API_MAX_RETRIES : ℕ := 3
def API_RETRY_DELAY : ℕ := 1
def API_CACHE_TTL : ℕ := 24 * 3600

inductive TransportOutcome where
  | timeout
  | requestError (msg : String)
  | success (data : PyVal)

inductive FetchEffect where
  | stError (msg : String)
  | sleep (seconds : ℕ)
deriving DecidableEq, Repr

inductive FetchResult where
  | ret (v : Option PyVal)
  | raised (e : PyErr)

/-- `data['errors'][0]['message']`. -/
def firstErrorMessage (data : PyVal) : Except PyErr PyVal :=
  match dictGet data "errors" with
  | .error e => .error e
  | .ok es =>
    match pyIndexInt es 0 with
    | .error e => .error e
    | .ok e0 => dictGet e0 "message"

/-- The retry loop from iteration `attempt` on. -/
def fetch_data_go (oracle : ℕ → TransportOutcome) (attempt : ℕ) :
    FetchResult × List FetchEffect :=
  if h : attempt < API_MAX_RETRIES then
    match oracle attempt with
    | .success data =>
      match pyContains data "errors" with
      | .error e => (.raised e, [])
      | .ok true =>
        match firstErrorMessage data with
        | .ok m => (.ret none, [.stError ("GraphQL feil: " ++ pyStr m)])
        | .error e => (.raised e, [])
      | .ok false => (.ret (some data), [])
    | .timeout =>
      if attempt = API_MAX_RETRIES - 1 then
        (.ret none, [.stError "Forespørsel tok for lang tid. Prøv igjen senere."])
      else fetch_data_go oracle (attempt + 1)
    | .requestError msg =>
      if attempt = API_MAX_RETRIES - 1 then
        (.ret none, [.stError ("Kunne ikke hente data: " ++ msg)])
      else
        let r := fetch_data_go oracle (attempt + 1)
        (r.1, .sleep (API_RETRY_DELAY * (attempt + 1)) :: r.2)
  else (.ret none, [])
termination_by API_MAX_RETRIES - attempt

def fetch_data (oracle : ℕ → TransportOutcome) : FetchResult × List FetchEffect :=
  fetch_data_go oracle 0

def isTransportFailure : TransportOutcome → Prop
  | .timeout => True
  | .requestError _ => True
  | .success _ => False

/-- C7: (1) the loop consults at most `API_MAX_RETRIES = 3` attempts — the
outcome depends only on the oracle's first three values; (2) when every
attempt fails at the transport level (timeout or request error), the final
failed attempt returns the failure value `None` to the caller instead of
raising; (3) a well-formed first response whose body carries a GraphQL
`errors` field is rejected immediately — no retry can occur since the result
is fixed by attempt 0 alone — returning `None` with a distinct notice built
from the first error's message. -/
theorem fetch_data_retry_spec :
    (∀ oracle oracle2 : ℕ → TransportOutcome,
      (∀ i, i < API_MAX_RETRIES → oracle i = oracle2 i) →
      fetch_data oracle = fetch_data oracle2) ∧
    (∀ oracle : ℕ → TransportOutcome,
      (∀ i, i < API_MAX_RETRIES → isTransportFailure (oracle i)) →
      (fetch_data oracle).1 = .ret none) ∧
    (∀ (oracle : ℕ → TransportOutcome) (data m : PyVal),
      oracle 0 = .success data →
      pyContains data "errors" = .ok true →
      firstErrorMessage data = .ok m →
      fetch_data oracle = (.ret none, [.stError ("GraphQL feil: " ++ pyStr m)])) := by
  have hgo : ∀ (oracle oracle2 : ℕ → TransportOutcome),
      (∀ i, i < API_MAX_RETRIES → oracle i = oracle2 i) →
      ∀ fuel attempt, API_MAX_RETRIES - attempt ≤ fuel →
      fetch_data_go oracle attempt = fetch_data_go oracle2 attempt := by
    intro oracle oracle2 hor fuel
    induction fuel with
    | zero =>
      intro attempt hle
      unfold fetch_data_go
      rw [dif_neg (by omega), dif_neg (by omega)]
    | succ f ih =>
      intro attempt hle
      by_cases hlt : attempt < API_MAX_RETRIES
      · unfold fetch_data_go
        rw [dif_pos hlt, dif_pos hlt, ← hor attempt hlt]
        cases oracle attempt with
        | success data => rfl
        | timeout =>
          dsimp only
          by_cases hfin : attempt = API_MAX_RETRIES - 1
          · rw [if_pos hfin, if_pos hfin]
          · rw [if_neg hfin, if_neg hfin, ih (attempt + 1) (by omega)]
        | requestError msg =>
          dsimp only
          by_cases hfin : attempt = API_MAX_RETRIES - 1
          · rw [if_pos hfin, if_pos hfin]
          · rw [if_neg hfin, if_neg hfin, ih (attempt + 1) (by omega)]
      · unfold fetch_data_go
        rw [dif_neg hlt, dif_neg hlt]
  have hfailgo : ∀ (oracle : ℕ → TransportOutcome),
      (∀ i, i < API_MAX_RETRIES → isTransportFailure (oracle i)) →
      ∀ fuel attempt, API_MAX_RETRIES - attempt ≤ fuel →
      (fetch_data_go oracle attempt).1 = .ret none := by
    intro oracle hfail fuel
    induction fuel with
    | zero =>
      intro attempt hle
      unfold fetch_data_go
      rw [dif_neg (by omega)]
    | succ f ih =>
      intro attempt hle
      by_cases hlt : attempt < API_MAX_RETRIES
      · unfold fetch_data_go
        rw [dif_pos hlt]
        cases ho : oracle attempt with
        | success data =>
          have := hfail attempt hlt
          rw [ho] at this
          exact absurd this (by simp [isTransportFailure])
        | timeout =>
          dsimp only
          by_cases hfin : attempt = API_MAX_RETRIES - 1
          · rw [if_pos hfin]
          · rw [if_neg hfin]
            exact ih (attempt + 1) (by omega)
        | requestError msg =>
          dsimp only
          by_cases hfin : attempt = API_MAX_RETRIES - 1
          · rw [if_pos hfin]
          · rw [if_neg hfin]
            exact ih (attempt + 1) (by omega)
      · unfold fetch_data_go
        rw [dif_neg hlt]
  refine ⟨fun o o2 h => hgo o o2 h API_MAX_RETRIES 0 (by omega),
    fun o h => hfailgo o h API_MAX_RETRIES 0 (by omega), ?_⟩
  intro oracle data m h0 herr hmsg
  unfold fetch_data fetch_data_go
  rw [dif_pos (by norm_num [API_MAX_RETRIES]), h0]
  dsimp only
  rw [herr]
  dsimp only
  rw [hmsg]

def orTimeoutW : ℕ → TransportOutcome := fun _ => .timeout

def gqlDataW : PyVal := .vdict [("errors", .vlist [.vdict [("message", .vstr "boom")]])]

def orGQLW : ℕ → TransportOutcome := fun _ => .success gqlDataW

theorem fetch_data_retry_spec_witness :
    (fetch_data orTimeoutW).1 = .ret none ∧
    fetch_data orGQLW = (.ret none, [.stError "GraphQL feil: boom"]) :=
  ⟨fetch_data_retry_spec.2.1 orTimeoutW (fun _ _ => trivial),
    fetch_data_retry_spec.2.2 orGQLW gqlDataW (.vstr "boom") rfl rfl rfl⟩

/-! ## Query cache (`@st.cache_data(ttl=API_CACHE_TTL)` on `fetch_data`, line 178) -/

/-- Modelled from the spec: the caching behaviour of the
`st.cache_data(ttl=API_CACHE_TTL)` decorator applied to `fetch_data` — the
decorator's implementation lives in the external streamlit library, not in
this repository.  Per the spec, the result is memoized for a fixed TTL
(24 hours) keyed by the exact query text in a single process-wide store. -/
structure CacheState where
  entries : List (String × (ℕ × Option PyVal))

/-- Modelled from the spec: one cached call at time `now` (seconds).  On a
hit within the TTL window the stored value is returned and the underlying
fetch is not consulted; on a miss or an expired entry the underlying fetch
runs once and its result is stored.  The third component counts underlying
network calls (0 or 1). -/
def cachedFetch (underlying : String → Option PyVal) (now : ℕ) (query : String)
    (st : CacheState) : Option PyVal × CacheState × ℕ :=
  match findVal st.entries query with
  | some (t, v) =>
    if now < t + API_CACHE_TTL then (v, st, 0)
    else ((underlying query), ⟨(query, (now, underlying query)) :: st.entries⟩, 1)
  | none => ((underlying query), ⟨(query, (now, underlying query)) :: st.entries⟩, 1)

/-- C8: two fetches of the identical query text within the TTL window cause
exactly one underlying network call — the second returns the memoized value
of the first — and both observe the same shared state. -/
theorem cached_fetch_single_call (underlying : String → Option PyVal)
    (query : String) (t1 t2 : ℕ) (st0 : CacheState)
    (hfresh : findVal st0.entries query = none) (h12 : t1 ≤ t2)
    (httl : t2 < t1 + API_CACHE_TTL) :
    (cachedFetch underlying t1 query st0).2.2 +
      (cachedFetch underlying t2 query (cachedFetch underlying t1 query st0).2.1).2.2 = 1 ∧
    (cachedFetch underlying t2 query (cachedFetch underlying t1 query st0).2.1).1 =
      (cachedFetch underlying t1 query st0).1 ∧
    (cachedFetch underlying t1 query st0).1 = underlying query := by
  unfold cachedFetch
  rw [hfresh]
  dsimp only
  have hhit : findVal ((query, (t1, underlying query)) :: st0.entries) query =
      some (t1, underlying query) := by
    unfold findVal
    rw [if_pos rfl]
  rw [hhit]
  dsimp only
  rw [if_pos (by omega)]
  exact ⟨rfl, rfl, rfl⟩

theorem cached_fetch_single_call_witness :
    (cachedFetch (fun _ => none) 0 "query" ⟨[]⟩).2.2 +
      (cachedFetch (fun _ => none) 10 "query"
        (cachedFetch (fun _ => none) 0 "query" ⟨[]⟩).2.1).2.2 = 1 ∧
    (cachedFetch (fun _ => none) 10 "query"
        (cachedFetch (fun _ => none) 0 "query" ⟨[]⟩).2.1).1 =
      (cachedFetch (fun _ => none) 0 "query" ⟨[]⟩).1 ∧
    (cachedFetch (fun _ => none) 0 "query" ⟨[]⟩).1 = none :=
  cached_fetch_single_call (fun _ => none) "query" 0 10 ⟨[]⟩ rfl (by omega)
    (by norm_num [API_CACHE_TTL])

/-! ## Toll-exemption overlay (`analyze_toll_exemptions`, lines 723-748) -/

def MONTH_NAMES : List String :=
  ["Januar", "Februar", "Mars", "April", "Mai", "Juni",
   "Juli", "August", "September", "Oktober", "November", "Desember"]

structure FerdeEntry where
  total_passeringer : List ℕ
  fritakspasseringer : List ℕ
deriving DecidableEq, Repr

/-- The static 2024 Ferde dataset (months 1..12 as list positions 0..11). -/
def FERDE_DATA_2024 : List (String × FerdeEntry) :=
  [("Hundvågtunnelen",
    { total_passeringer := [184679, 182709, 199378, 212489, 236726, 240047,
        233855, 253300, 226734, 217541, 200790, 189330]
      fritakspasseringer := [55214, 56004, 63135, 66046, 75436, 75886,
        75617, 79373, 69799, 67367, 61442, 60346] }),
   ("Ryfylketunnelen",
    { total_passeringer := [131708, 133245, 153886, 158835, 186254, 189346,
        196522, 202069, 172856, 159849, 145479, 136503]
      fritakspasseringer := [5360, 4348, 3833, 5604, 4915, 5374,
        4602, 6224, 5510, 6480, 5385, 3896] })]

/-- One row of the analysis frame. -/
structure TollRow where
  maaned : String
  bompasseringer : ℕ
  fritakspasseringer : ℕ
  andel_fritak_pct : ℚ
  betalende : ℤ
deriving DecidableEq, Repr

structure TollTotals where
  total_passages : ℕ
  total_exemptions : ℕ
  total_paying : ℤ
  average_exemption_rate : ℚ
deriving DecidableEq, Repr

def tollRowOf (fd : FerdeEntry) (m : ℕ) : TollRow :=
  let tot := fd.total_passeringer.getD m 0
  let fri := fd.fritakspasseringer.getD m 0
  { maaned := MONTH_NAMES.getD m ""
    bompasseringer := tot
    fritakspasseringer := fri
    andel_fritak_pct := round2 ((fri : ℚ) / (tot : ℚ) * 100)
    betalende := (tot : ℤ) - (fri : ℤ) }

/-- `analyze_toll_exemptions(df, point, year)`: the `df` argument is unused by
the analysis logic; data comes from the static dataset.  Returns `None`
unless `year == 2024 and point in FERDE_DATA_2024`. -/
def analyze_toll_exemptions (point : String) (year : ℤ) :
    Option (List TollRow × TollTotals) :=
  if year = 2024 then
    match findVal FERDE_DATA_2024 point with
    | some fd =>
      let rows := (List.range 12).map (tollRowOf fd)
      some (rows,
        { total_passages := (rows.map TollRow.bompasseringer).sum
          total_exemptions := (rows.map TollRow.fritakspasseringer).sum
          total_paying := (rows.map TollRow.betalende).sum
          average_exemption_rate := (rows.map TollRow.andel_fritak_pct).sum / 12 })
    | none => none
  else none

/-- C9: the overlay returns the explicit absent value (`none` — not an error
and not a table of zero exemptions) for every (point, year) pair outside the
static dataset; for every pair inside it, it returns 12 monthly rows where
row `m` carries exemption share `= exemptions/total × 100` rounded to two
decimals and paying passages `= total − exemptions`. -/
theorem analyze_toll_exemptions_spec (point : String) (year : ℤ) :
    ((year ≠ 2024 ∨ findVal FERDE_DATA_2024 point = none) →
      analyze_toll_exemptions point year = none) ∧
    (∀ fd, year = 2024 → findVal FERDE_DATA_2024 point = some fd →
      ∃ rows totals, analyze_toll_exemptions point year = some (rows, totals) ∧
        rows.length = 12 ∧
        ∀ m, m < 12 → rows.get? m = some (tollRowOf fd m)) := by
  constructor
  · intro h
    unfold analyze_toll_exemptions
    rcases h with h | h
    · rw [if_neg h]
    · by_cases hy : year = 2024
      · rw [if_pos hy, h]
      · rw [if_neg hy]
  · intro fd hy hfd
    subst hy
    unfold analyze_toll_exemptions
    rw [if_pos rfl, hfd]
    refine ⟨_, _, rfl, by simp, ?_⟩
    intro m hm
    rw [List.get?_map, List.get?_range hm]
    rfl

theorem analyze_toll_exemptions_spec_witness :
    analyze_toll_exemptions "Bybrua" 2024 = none ∧
    analyze_toll_exemptions "Ryfylketunnelen" 2023 = none ∧
    (∃ rows totals,
      analyze_toll_exemptions "Ryfylketunnelen" 2024 = some (rows, totals) ∧
      rows.length = 12 ∧
      ∀ m, m < 12 → rows.get? m =
        some (tollRowOf
          { total_passeringer := [131708, 133245, 153886, 158835, 186254, 189346,
              196522, 202069, 172856, 159849, 145479, 136503]
            fritakspasseringer := [5360, 4348, 3833, 5604, 4915, 5374,
              4602, 6224, 5510, 6480, 5385, 3896] } m)) :=
  ⟨(analyze_toll_exemptions_spec "Bybrua" 2024).1 (Or.inr rfl),
   (analyze_toll_exemptions_spec "Ryfylketunnelen" 2023).1 (Or.inl (by norm_num)),
   (analyze_toll_exemptions_spec "Ryfylketunnelen" 2024).2 _ rfl rfl⟩
